import Mathlib

/-!
OpenTunnel registry and ingress forwarding: verification of spec claims.

Shallow embedding of the tunnel registry (`app/services/registry.py`), the
ingress forwarder (`app/services/tunnel_service.py`), the WebSocket receive
loop (`app/api/v1/tunnels.py`) and the local forwarder of the tunnel client
(`client/cli.py`).  Bytes are `Nat` values below 256; Python dicts keyed by
strings are association lists with dict update semantics; the asyncio layer
is modelled by explicit state passing with the outcome of each await
(response, timeout, send failure) passed in as a parameter.
-/

namespace OpenTunnel

/-! ## Base64 codec (Python `base64.b64encode` / `b64decode`, standard alphabet) -/

/-- Sextet value to ASCII code of the standard base64 alphabet. -/
def b64char (i : Nat) : Nat :=
  if i < 26 then 65 + i
  else if i < 52 then 97 + (i - 26)
  else if i < 62 then 48 + (i - 52)
  else if i = 62 then 43
  else 47

/-- ASCII code to sextet value; inverse of `b64char` on the alphabet. -/
def b64val (c : Nat) : Nat :=
  if 65 ≤ c ∧ c ≤ 90 then c - 65
  else if 97 ≤ c ∧ c ≤ 122 then 26 + (c - 97)
  else if 48 ≤ c ∧ c ≤ 57 then 52 + (c - 48)
  else if c = 43 then 62
  else 63

/-- ASCII code of the base64 padding character `=`. -/
def b64padChar : Nat := 61

/-- Standard base64 encoding of a byte string, three bytes to four
characters, padded with `=` as Python `base64.b64encode` does. -/
def b64encode : List Nat → List Nat
  | [] => []
  | [a] => [b64char (a / 4), b64char (a % 4 * 16), b64padChar, b64padChar]
  | [a, b] =>
      [b64char (a / 4), b64char (a % 4 * 16 + b / 16), b64char (b % 16 * 4), b64padChar]
  | a :: b :: c :: rest =>
      b64char (a / 4) :: b64char (a % 4 * 16 + b / 16) ::
        b64char (b % 16 * 4 + c / 64) :: b64char (c % 64) :: b64encode rest

/-- Standard base64 decoding of a well-formed encoding, four characters to
up to three bytes, honouring `=` padding as Python `base64.b64decode` does. -/
def b64decode : List Nat → List Nat
  | c1 :: c2 :: c3 :: c4 :: rest =>
      if c3 = b64padChar then
        [b64val c1 * 4 + b64val c2 / 16]
      else if c4 = b64padChar then
        [b64val c1 * 4 + b64val c2 / 16, b64val c2 % 16 * 16 + b64val c3 / 4]
      else
        (b64val c1 * 4 + b64val c2 / 16) :: (b64val c2 % 16 * 16 + b64val c3 / 4) ::
          (b64val c3 % 4 * 64 + b64val c4) :: b64decode rest
  | _ => []

theorem b64val_b64char : ∀ i < 64, b64val (b64char i) = i := by decide

theorem b64char_ne_pad : ∀ i < 64, b64char i ≠ b64padChar := by decide

/-- Decoding inverts encoding on byte strings. -/
theorem b64decode_b64encode :
    ∀ B : List Nat, (∀ b ∈ B, b < 256) → b64decode (b64encode B) = B := by
  intro B
  induction B using b64encode.induct with
  | case1 =>
      intro _; rfl
  | case2 a =>
      intro h
      have ha : a < 256 := h a (by simp)
      simp only [b64encode, b64decode, if_true]
      rw [b64val_b64char (a / 4) (by omega), b64val_b64char (a % 4 * 16) (by omega)]
      simp only [List.cons.injEq, and_true]
      omega
  | case3 a b =>
      intro h
      have ha : a < 256 := h a (by simp)
      have hb : b < 256 := h b (by simp)
      simp only [b64encode, b64decode, if_true,
        if_neg (b64char_ne_pad (b % 16 * 4) (by omega))]
      rw [b64val_b64char (a / 4) (by omega),
        b64val_b64char (a % 4 * 16 + b / 16) (by omega),
        b64val_b64char (b % 16 * 4) (by omega)]
      simp only [List.cons.injEq, and_true]
      omega
  | case4 a b c rest ih =>
      intro h
      have ha : a < 256 := h a (by simp)
      have hb : b < 256 := h b (by simp)
      have hc : c < 256 := h c (by simp)
      simp only [b64encode, b64decode,
        if_neg (b64char_ne_pad (b % 16 * 4 + c / 64) (by omega)),
        if_neg (b64char_ne_pad (c % 64) (by omega))]
      rw [b64val_b64char (a / 4) (by omega),
        b64val_b64char (a % 4 * 16 + b / 16) (by omega),
        b64val_b64char (b % 16 * 4 + c / 64) (by omega),
        b64val_b64char (c % 64) (by omega)]
      rw [ih (fun x hx => h x (by simp [hx]))]
      simp only [List.cons.injEq, and_true]
      omega

/-! ## Ingress body pipeline (`tunnel_service.forward_request` and `cli.forward_request_to_local`) -/

/-- Python `forward_request`: the `body_b64` field of the wire request
(`base64.b64encode(body_bytes) if body_bytes else None`). -/
def ingressBodyB64 (body : List Nat) : Option (List Nat) :=
  if body = [] then none else some (b64encode body)

/-- Python `forward_request_to_local`: request body handed to the local server
(`base64.b64decode(body_b64) if body_b64 else None`; `None` is sent as an
empty body). -/
def clientRequestBody (bodyB64 : Option (List Nat)) : List Nat :=
  match bodyB64 with
  | none => []
  | some s => b64decode s

/-- Python `forward_request_to_local`: the `body_b64` field of the response frame
(`base64.b64encode(resp.content) if resp.content else None`). -/
def clientResponseBodyB64 (content : List Nat) : Option (List Nat) :=
  if content = [] then none else some (b64encode content)

/-- Python `forward_request`: public response body rendered from a response frame
(`base64.b64decode(body_b64) if body_b64 else b""`). -/
def renderResponseBody (bodyB64 : Option (List Nat)) : List Nat :=
  match bodyB64 with
  | none => []
  | some s => b64decode s

/-! ## Registry data model (`app/services/registry.py`)

Connections are identified by `Nat` handles; `closedConns` records every
handle on which the server called `close()`.  Python dicts are association
lists with first-match lookup and in-place update. -/

/-- Resolution state of the `asyncio.Future` held by a pending request:
the code only ever resolves a future with `set_result(message)`. -/
inductive FutureState
  | unresolved
  | resolved (status_code : Option Nat) (headers : List (String × String))
      (body_b64 : Option (List Nat))
  deriving Repr, DecidableEq

/-- The fields of a decoded inbound JSON frame that the server reads. -/
structure WireMsg where
  msgType : Option String := none
  correlation_id : Option String := none
  status_code : Option Nat := none
  headers : List (String × String) := []
  body_b64 : Option (List Nat) := none
  deriving Repr, DecidableEq

/-- Dataclass `PendingRequest`: a pending request waiting for response. -/
structure PendingRequest where
  future : FutureState
  created_at : Nat
  deriving Repr, DecidableEq

/-- Dataclass `Tunnel`: a route with its token and runtime session state. -/
structure Tunnel where
  route : String
  token : String
  description : Option String := none
  created_at : Nat := 0
  last_seen : Option Nat := none
  websocket : Option Nat := none
  connected : Bool := false
  pending : List (String × PendingRequest) := []
  deriving Repr, DecidableEq

/-- Shared state of `TunnelRegistry`: the two indices, plus the trace of
connection handles the server has closed. -/
structure TunnelRegistry where
  routeToTunnel : List (String × Tunnel) := []
  tokenToRoute : List (String × String) := []
  closedConns : List Nat := []
  deriving Repr, DecidableEq

/-- Python dict lookup `d.get(k)`: first entry with the key. -/
def dictGet {β : Type} (d : List (String × β)) (k : String) : Option β :=
  (d.find? (fun p => p.1 == k)).map Prod.snd

/-- Python dict `d.pop(k, None)`: drop every entry with the key. -/
def dictRemove {β : Type} (d : List (String × β)) (k : String) : List (String × β) :=
  d.filter (fun p => p.1 != k)

/-- In-place update of the value stored at a key, leaving other keys alone. -/
def dictModify {β : Type} (d : List (String × β)) (k : String) (f : β → β) :
    List (String × β) :=
  d.map (fun p => if p.1 == k then (p.1, f p.2) else p)

/-- Python dict assignment `d[k] = v`: overwrite in place when present,
append otherwise. -/
def dictInsert {β : Type} (d : List (String × β)) (k : String) (v : β) :
    List (String × β) :=
  if (d.find? (fun p => p.1 == k)).isSome then dictModify d k (fun _ => v)
  else d ++ [(k, v)]

/-- Method `TunnelRegistry.create_tunnel` with the freshly minted token passed in
(`uuid.uuid4().hex` is an oracle).  `none` models `ValueError("Route already
exists")`. -/
def TunnelRegistry.create_tunnel (s : TunnelRegistry) (route token : String)
    (description : Option String) (now : Nat) : TunnelRegistry × Option Tunnel :=
  if (dictGet s.routeToTunnel route).isSome then (s, none)
  else
    let t : Tunnel := { route := route, token := token, description := description,
                        created_at := now }
    ({ s with routeToTunnel := dictInsert s.routeToTunnel route t,
              tokenToRoute := dictInsert s.tokenToRoute token route }, some t)

/-- Method `TunnelRegistry.delete_tunnel`: pop the route, pop its token, close the
attached connection if any. -/
def TunnelRegistry.delete_tunnel (s : TunnelRegistry) (route : String) :
    TunnelRegistry × Bool :=
  match dictGet s.routeToTunnel route with
  | none => (s, false)
  | some t =>
      let s1 : TunnelRegistry :=
        { s with routeToTunnel := dictRemove s.routeToTunnel route,
                 tokenToRoute := dictRemove s.tokenToRoute t.token }
      match t.websocket with
      | some ws => ({ s1 with closedConns := s1.closedConns ++ [ws] }, true)
      | none => (s1, true)

/-- The field updates of `attach_websocket`: bind the new connection. -/
def attachFn (ws now : Nat) (t : Tunnel) : Tunnel :=
  { t with websocket := some ws, connected := true, last_seen := some now }

/-- The field updates shared by `detach_websocket` and the `ping_connected`
failure branch: clear the connection. -/
def resetConnFn (now : Nat) (t : Tunnel) : Tunnel :=
  { t with websocket := none, connected := false, last_seen := some now }

/-- Assignment `tunnel.pending[cid] = PendingRequest(future, time.time())`. -/
def pendingInsertFn (cid : String) (now : Nat) (t : Tunnel) : Tunnel :=
  { t with pending := dictInsert t.pending cid ⟨.unresolved, now⟩ }

/-- Removal `tunnel.pending.pop(cid, None)`. -/
def pendingRemoveFn (cid : String) (t : Tunnel) : Tunnel :=
  { t with pending := dictRemove t.pending cid }

/-- Method `TunnelRegistry.attach_websocket` (no DB service is configured in
`main.py`, so only the in-memory indices are consulted).  `none` models
`PermissionError`.  The prior connection handle is simply overwritten. -/
def TunnelRegistry.attach_websocket (s : TunnelRegistry) (token : String) (ws : Nat)
    (now : Nat) : TunnelRegistry × Option Tunnel :=
  match dictGet s.tokenToRoute token with
  | none => (s, none)
  | some route =>
      match dictGet s.routeToTunnel route with
      | none => (s, none)
      | some _ =>
          let d1 := dictModify s.routeToTunnel route (attachFn ws now)
          let s1 : TunnelRegistry := { s with routeToTunnel := d1 }
          (s1, dictGet s1.routeToTunnel route)

/-- Loop body of `TunnelRegistry.detach_websocket`: reset the first tunnel
whose `websocket is websocket`, then `break`. -/
def detachFirst : List (String × Tunnel) → Nat → Nat → List (String × Tunnel)
  | [], _, _ => []
  | (r, t) :: rest, ws, now =>
      if t.websocket = some ws then (r, resetConnFn now t) :: rest
      else (r, t) :: detachFirst rest ws now

/-- Method `TunnelRegistry.detach_websocket`. -/
def TunnelRegistry.detach_websocket (s : TunnelRegistry) (ws : Nat) (now : Nat) :
    TunnelRegistry :=
  { s with routeToTunnel := detachFirst s.routeToTunnel ws now }

/-- The `except` branch of `TunnelRegistry.ping_connected` for one tunnel
whose `send_json` raised: close the connection if present, clear the handle,
mark disconnected. -/
def TunnelRegistry.ping_fail (s : TunnelRegistry) (route : String) (now : Nat) :
    TunnelRegistry :=
  match dictGet s.routeToTunnel route with
  | none => s
  | some t =>
      let s1 : TunnelRegistry :=
        match t.websocket with
        | some ws => { s with closedConns := s.closedConns ++ [ws] }
        | none => s
      let d1 := dictModify s1.routeToTunnel route (resetConnFn now)
      { s1 with routeToTunnel := d1 }

/-- Loop body of the `pong` branch of `handle_client_message`: refresh
`last_seen` of the first tunnel bound to this connection, then `break`. -/
def updateLastSeenFirst : List (String × Tunnel) → Nat → Nat → List (String × Tunnel)
  | [], _, _ => []
  | (r, t) :: rest, ws, now =>
      if t.websocket = some ws then (r, { t with last_seen := some now }) :: rest
      else (r, t) :: updateLastSeenFirst rest ws now

/-- Loop body of the `response` branch of `handle_client_message`: on the
first tunnel bound to this connection, resolve the pending future for the
correlation id if present and not yet done, then `break`. -/
def completeFirst : List (String × Tunnel) → Nat → String → WireMsg →
    List (String × Tunnel)
  | [], _, _, _ => []
  | (r, t) :: rest, ws, cid, msg =>
      if t.websocket = some ws then
        let pend := dictModify t.pending cid
          (fun p => match p.future with
            | .unresolved =>
                { p with future := .resolved msg.status_code msg.headers msg.body_b64 }
            | .resolved _ _ _ => p)
        (r, { t with pending := pend }) :: rest
      else (r, t) :: completeFirst rest ws cid msg

/-- Method `TunnelRegistry.handle_client_message`: `pong` refreshes liveness, a
`response` with a truthy correlation id resolves the matching pending
future, everything else is a no-op. -/
def TunnelRegistry.handle_client_message (s : TunnelRegistry) (ws : Nat) (msg : WireMsg)
    (now : Nat) : TunnelRegistry :=
  if msg.msgType = some "pong" then
    { s with routeToTunnel := updateLastSeenFirst s.routeToTunnel ws now }
  else if msg.msgType ≠ some "response" then s
  else
    match msg.correlation_id with
    | none => s
    | some cid =>
        if cid = "" then s
        else { s with routeToTunnel := completeFirst s.routeToTunnel ws cid msg }

/-! ## Ingress send path (`send_ingress_request`, `forward_request`, `tunnel_ws`) -/

/-- Outcome of `asyncio.wait_for(future, timeout)` inside
`send_ingress_request`, passed in as an oracle. -/
inductive AwaitOutcome
  | response (status_code : Option Nat) (headers : List (String × String))
      (body_b64 : Option (List Nat))
  | timeout
  deriving Repr, DecidableEq

/-- How one call to `send_ingress_request` ends. -/
inductive SendResult
  /-- Error `ConnectionError` raised under the lock. -/
  | notConnected
  /-- Write `websocket.send_json` raised; the exception propagates and the
  `try/finally` that removes the pending entry was never entered. -/
  | sendRaised
  /-- The future resolved with a response frame; returned after the
  `finally` popped the pending entry. -/
  | ok (status_code : Option Nat) (headers : List (String × String))
      (body_b64 : Option (List Nat))
  /-- Timeout `asyncio.TimeoutError` propagates after the `finally` popped the
  pending entry. -/
  | timedOut
  deriving Repr, DecidableEq

/-- Correlation id placed on the wire: `payload.get("correlation_id")` when
truthy, else a freshly minted `uuid.uuid4().hex` (the `fresh` oracle). -/
def assignedCid (payloadCid fresh : String) : String :=
  if payloadCid = "" then fresh else payloadCid

/-- The state after `tunnel.pending[correlation_id] = PendingRequest(...)`
inside the first locked section of `send_ingress_request`. -/
def afterInsert (s : TunnelRegistry) (route cid : String) (now : Nat) : TunnelRegistry :=
  { s with routeToTunnel := dictModify s.routeToTunnel route (pendingInsertFn cid now) }

/-- The state after the `finally` block of `send_ingress_request` popped the
pending entry again. -/
def afterRemove (s : TunnelRegistry) (route cid : String) : TunnelRegistry :=
  { s with routeToTunnel := dictModify s.routeToTunnel route (pendingRemoveFn cid) }

/-- Method `TunnelRegistry.send_ingress_request` for one request, with the await
outcome and the success of the frame write passed in as oracles. -/
def TunnelRegistry.send_ingress_request (s : TunnelRegistry) (route : String)
    (payloadCid fresh : String) (now : Nat) (sendOk : Bool) (aw : AwaitOutcome) :
    TunnelRegistry × SendResult :=
  match dictGet s.routeToTunnel route with
  | none => (s, .notConnected)
  | some t =>
      if t.connected = false ∨ t.websocket = none then (s, .notConnected)
      else
        let cid := assignedCid payloadCid fresh
        let s1 := afterInsert s route cid now
        if sendOk = false then (s1, .sendRaised)
        else
          let s2 := afterRemove s1 route cid
          match aw with
          | .response st hs b => (s2, .ok st hs b)
          | .timeout => (s2, .timedOut)

/-- Inbound public HTTP request as `forward_request` reads it. -/
structure PublicRequest where
  method : String
  rest_of_path : String
  query : List (String × String)
  headers : List (String × String)
  body : List Nat
  deriving Repr, DecidableEq

/-- ASCII lower-casing of one character, as Python `str.lower()` acts on
header names. -/
def lowerChar (c : Char) : Char :=
  if 'A' ≤ c ∧ c ≤ 'Z' then Char.ofNat (c.toNat + 32) else c

/-- ASCII lower-casing of a header name (`k.lower()`). -/
def lowerStr (s : String) : String := String.mk (s.data.map lowerChar)

/-- Header dict built by `forward_request`: names lower-cased, entries
accumulated with dict assignment; nothing is removed. -/
def buildWireHeaders (hs : List (String × String)) : List (String × String) :=
  hs.foldl (fun d kv => dictInsert d (lowerStr kv.1) kv.2) []

/-- Query dict built by `forward_request`:
`query_params.setdefault(key, []).append(value)` over the multi-items. -/
def buildQuery (q : List (String × String)) : List (String × List String) :=
  q.foldl (fun d kv =>
    match dictGet d kv.1 with
    | some vs => dictInsert d kv.1 (vs ++ [kv.2])
    | none => dictInsert d kv.1 [kv.2]) []

/-- The wire `request` payload assembled by `forward_request`. -/
structure WirePayload where
  correlation_id : String
  method : String
  path : String
  query : List (String × List String)
  headers : List (String × String)
  body_b64 : Option (List Nat)
  deriving Repr, DecidableEq

/-- Python `forward_request`: the payload dict before it is handed to
`send_ingress_request`; `correlation_id` is set to the empty string. -/
def buildPayload (req : PublicRequest) : WirePayload :=
  { correlation_id := ""
    method := req.method
    path := if req.rest_of_path = "" then "/" else "/" ++ req.rest_of_path
    query := buildQuery req.query
    headers := buildWireHeaders req.headers
    body_b64 := ingressBodyB64 req.body }

/-- What the public caller gets out of `forward_request`. -/
inductive ForwardResult
  /-- A rendered `Response(content, status_code, headers)`. -/
  | response (status : Nat) (headers : List (String × String)) (body : List Nat)
  /-- A raised `HTTPException(status_code, detail)`. -/
  | httpError (status : Nat) (detail : String)
  /-- An exception that no handler in `forward_request` catches; it
  propagates out of the endpoint. -/
  | unhandled
  deriving Repr, DecidableEq

/-- Method `TunnelService.forward_request`: build the payload, send it through the
registry, and translate the outcome.  Only `ConnectionError` is caught. -/
def TunnelService.forward_request (s : TunnelRegistry) (req : PublicRequest)
    (route fresh : String) (now : Nat) (sendOk : Bool) (aw : AwaitOutcome) :
    TunnelRegistry × ForwardResult :=
  let payload := buildPayload req
  let sr := s.send_ingress_request route payload.correlation_id fresh now sendOk aw
  match sr.2 with
  | .notConnected => (sr.1, .httpError 502 "Tunnel not connected")
  | .sendRaised => (sr.1, .unhandled)
  | .timedOut => (sr.1, .unhandled)
  | .ok st hs b => (sr.1, .response (st.getD 502) hs (renderResponseBody b))

/-- One `websocket.receive_json()` delivery in the `tunnel_ws` loop. -/
inductive RawFrame
  /-- Call `receive_json` parsed a JSON object. -/
  | jsonMsg (msg : WireMsg)
  /-- Call `receive_json` raised because the text frame is not JSON. -/
  | nonJson
  /-- Exception `WebSocketDisconnect`. -/
  | wsDisconnect
  deriving Repr, DecidableEq

/-- Whether the `tunnel_ws` receive loop keeps running after one frame. -/
inductive LoopResult
  | continueLoop
  | exitDetached
  deriving Repr, DecidableEq

/-- One iteration of the receive loop in `tunnel_ws`: a parsed frame goes to
`handle_client_message`; `WebSocketDisconnect` detaches; any other exception
(such as malformed JSON in `receive_json`) detaches and closes. -/
def tunnel_ws_step (s : TunnelRegistry) (ws : Nat) (raw : RawFrame) (now : Nat) :
    TunnelRegistry × LoopResult :=
  match raw with
  | .jsonMsg msg => (s.handle_client_message ws msg now, .continueLoop)
  | .wsDisconnect => (s.detach_websocket ws now, .exitDetached)
  | .nonJson =>
      let s1 := s.detach_websocket ws now
      ({ s1 with closedConns := s1.closedConns ++ [ws] }, .exitDetached)

/-- Python `forward_request_to_local`: headers dict after the two `pop` calls
(`host` and `connection` only). -/
def clientLocalHeaders (hs : List (String × String)) : List (String × String) :=
  dictRemove (dictRemove hs "host") "connection"

/-! ## Registry operations as a step relation (for the shared-state invariant) -/

/-- Every state-changing registry operation. -/
inductive RegOp
  | create (route token : String) (description : Option String) (now : Nat)
  | delete (route : String)
  | attach (token : String) (ws : Nat) (now : Nat)
  | detach (ws : Nat) (now : Nat)
  | pingFail (route : String) (now : Nat)
  | clientMsg (ws : Nat) (msg : WireMsg) (now : Nat)
  | ingress (route : String) (payloadCid fresh : String) (now : Nat) (sendOk : Bool)
      (aw : AwaitOutcome)
  deriving Repr, DecidableEq

/-- Effect of one registry operation on the shared state. -/
def TunnelRegistry.step (s : TunnelRegistry) : RegOp → TunnelRegistry
  | .create route token d now => (s.create_tunnel route token d now).1
  | .delete route => (s.delete_tunnel route).1
  | .attach token ws now => (s.attach_websocket token ws now).1
  | .detach ws now => s.detach_websocket ws now
  | .pingFail route now => s.ping_fail route now
  | .clientMsg ws msg now => s.handle_client_message ws msg now
  | .ingress route pc f now ok aw => (s.send_ingress_request route pc f now ok aw).1

/-- Session invariant of claim C9: route keys are unique, and every tunnel
has `connected` true exactly when a connection handle is present. -/
def RegInvariant (s : TunnelRegistry) : Prop :=
  (s.routeToTunnel.map Prod.fst).Nodup ∧
  ∀ p ∈ s.routeToTunnel, p.2.connected = p.2.websocket.isSome

/-! ## Association-list lemmas -/

theorem dictGet_nil {β : Type} (j : String) : dictGet ([] : List (String × β)) j = none := rfl

theorem dictGet_cons {β : Type} (a : String) (b : β) (d : List (String × β)) (j : String) :
    dictGet ((a, b) :: d) j = if a = j then some b else dictGet d j := by
  by_cases h : a = j <;> simp [dictGet, List.find?_cons, h]

theorem dictModify_nil {β : Type} (k : String) (f : β → β) :
    dictModify ([] : List (String × β)) k f = [] := rfl

theorem dictModify_cons {β : Type} (a : String) (b : β) (d : List (String × β))
    (k : String) (f : β → β) :
    dictModify ((a, b) :: d) k f =
      (if a = k then (a, f b) else (a, b)) :: dictModify d k f := by
  by_cases h : a = k <;> simp [dictModify, h]

theorem dictRemove_nil {β : Type} (k : String) :
    dictRemove ([] : List (String × β)) k = [] := rfl

theorem dictRemove_cons {β : Type} (a : String) (b : β) (d : List (String × β))
    (k : String) :
    dictRemove ((a, b) :: d) k =
      if a = k then dictRemove d k else (a, b) :: dictRemove d k := by
  by_cases h : a = k <;> simp [dictRemove, h]

theorem dictGet_dictModify {β : Type} (d : List (String × β)) (k : String) (f : β → β)
    (j : String) :
    dictGet (dictModify d k f) j = if j = k then (dictGet d k).map f else dictGet d j := by
  induction d with
  | nil => simp [dictModify_nil, dictGet_nil]
  | cons p d ih =>
      obtain ⟨a, b⟩ := p
      rw [dictModify_cons]
      by_cases hak : a = k <;> by_cases haj : a = j <;>
        subst_eqs <;> simp_all [dictGet_cons] <;> simp_all [eq_comm]

theorem dictGet_dictRemove {β : Type} (d : List (String × β)) (k j : String) :
    dictGet (dictRemove d k) j = if j = k then none else dictGet d j := by
  induction d with
  | nil => simp [dictRemove_nil, dictGet_nil]
  | cons p d ih =>
      obtain ⟨a, b⟩ := p
      rw [dictRemove_cons]
      by_cases hak : a = k <;> by_cases haj : a = j <;>
        subst_eqs <;> simp_all [dictGet_cons] <;> simp_all [eq_comm]

theorem dictGet_none_not_mem_keys {β : Type} (d : List (String × β)) (k : String)
    (h : dictGet d k = none) : k ∉ d.map Prod.fst := by
  induction d with
  | nil => simp
  | cons p d ih =>
      obtain ⟨a, b⟩ := p
      rw [dictGet_cons] at h
      by_cases hak : a = k
      · simp [hak] at h
      · simp only [if_neg hak] at h
        simp [ih h, hak, Ne.symm hak]

theorem dictInsert_of_absent {β : Type} (d : List (String × β)) (k : String) (v : β)
    (h : dictGet d k = none) : dictInsert d k v = d ++ [(k, v)] := by
  have hf : (d.find? (fun p => p.1 == k)) = none := by
    cases hf : d.find? (fun p => p.1 == k) with
    | none => rfl
    | some q => rw [dictGet, hf] at h; simp at h
  simp [dictInsert, hf]

theorem dictModify_of_absent {β : Type} (d : List (String × β)) (k : String) (f : β → β)
    (h : dictGet d k = none) : dictModify d k f = d := by
  induction d with
  | nil => rfl
  | cons p d ih =>
      obtain ⟨a, b⟩ := p
      rw [dictGet_cons] at h
      by_cases hak : a = k
      · simp [hak] at h
      · simp only [if_neg hak] at h
        rw [dictModify_cons, if_neg hak, ih h]

theorem keys_dictModify {β : Type} (d : List (String × β)) (k : String) (f : β → β) :
    (dictModify d k f).map Prod.fst = d.map Prod.fst := by
  induction d with
  | nil => rfl
  | cons p d ih =>
      obtain ⟨a, b⟩ := p
      rw [dictModify_cons]
      by_cases hak : a = k <;> simp [hak, ih]

theorem mem_dictModify {β : Type} (d : List (String × β)) (k : String) (f : β → β)
    (p : String × β) (hp : p ∈ dictModify d k f) :
    ∃ q ∈ d, p = q ∨ p = (q.1, f q.2) := by
  induction d with
  | nil => simp [dictModify_nil] at hp
  | cons q d ih =>
      obtain ⟨a, b⟩ := q
      rw [dictModify_cons] at hp
      rcases List.mem_cons.mp hp with h1 | h2
      · by_cases hak : a = k
        · exact ⟨(a, b), List.mem_cons_self _ _, Or.inr (by simpa [hak] using h1)⟩
        · exact ⟨(a, b), List.mem_cons_self _ _, Or.inl (by simpa [hak] using h1)⟩
      · obtain ⟨q, hq, hpq⟩ := ih h2
        exact ⟨q, List.mem_cons_of_mem _ hq, hpq⟩

theorem dictGet_append_single {β : Type} (d : List (String × β)) (k j : String) (v : β) :
    dictGet (d ++ [(k, v)]) j =
      match dictGet d j with
      | some w => some w
      | none => if k = j then some v else none := by
  induction d with
  | nil => simp [dictGet_nil, dictGet_cons]
  | cons p d ih =>
      obtain ⟨a, b⟩ := p
      rw [List.cons_append, dictGet_cons, dictGet_cons]
      by_cases haj : a = j
      · simp [haj]
      · simp [haj, ih]

theorem keys_detachFirst (d : List (String × Tunnel)) (ws now : Nat) :
    (detachFirst d ws now).map Prod.fst = d.map Prod.fst := by
  induction d with
  | nil => rfl
  | cons p d ih =>
      obtain ⟨r, t⟩ := p
      by_cases h : t.websocket = some ws <;> simp [detachFirst, h, ih]

theorem keys_updateLastSeenFirst (d : List (String × Tunnel)) (ws now : Nat) :
    (updateLastSeenFirst d ws now).map Prod.fst = d.map Prod.fst := by
  induction d with
  | nil => rfl
  | cons p d ih =>
      obtain ⟨r, t⟩ := p
      by_cases h : t.websocket = some ws <;> simp [updateLastSeenFirst, h, ih]

theorem keys_completeFirst (d : List (String × Tunnel)) (ws : Nat) (cid : String)
    (msg : WireMsg) :
    (completeFirst d ws cid msg).map Prod.fst = d.map Prod.fst := by
  induction d with
  | nil => rfl
  | cons p d ih =>
      obtain ⟨r, t⟩ := p
      by_cases h : t.websocket = some ws <;> simp [completeFirst, h, ih]

theorem mem_detachFirst (d : List (String × Tunnel)) (ws now : Nat)
    (p : String × Tunnel) (hp : p ∈ detachFirst d ws now) :
    ∃ q ∈ d, q.1 = p.1 ∧ p.2.pending = q.2.pending ∧
      (p.2 = q.2 ∨ (q.2.websocket = some ws ∧ p.2.websocket = none ∧
        p.2.connected = false)) := by
  induction d with
  | nil => simp [detachFirst] at hp
  | cons q d ih =>
      obtain ⟨r, t⟩ := q
      by_cases h : t.websocket = some ws
      · simp only [detachFirst, if_pos h] at hp
        rcases List.mem_cons.mp hp with h1 | h2
        · subst h1
          exact ⟨(r, t), List.mem_cons_self _ _, rfl, rfl, Or.inr ⟨h, rfl, rfl⟩⟩
        · exact ⟨p, List.mem_cons_of_mem _ h2, rfl, rfl, Or.inl rfl⟩
      · simp only [detachFirst, if_neg h] at hp
        rcases List.mem_cons.mp hp with h1 | h2
        · subst h1
          exact ⟨(r, t), List.mem_cons_self _ _, rfl, rfl, Or.inl rfl⟩
        · obtain ⟨q, hq, hpq⟩ := ih h2
          exact ⟨q, List.mem_cons_of_mem _ hq, hpq⟩

theorem mem_updateLastSeenFirst (d : List (String × Tunnel)) (ws now : Nat)
    (p : String × Tunnel) (hp : p ∈ updateLastSeenFirst d ws now) :
    ∃ q ∈ d, q.1 = p.1 ∧ p.2.pending = q.2.pending ∧
      p.2.connected = q.2.connected ∧ p.2.websocket = q.2.websocket := by
  induction d with
  | nil => simp [updateLastSeenFirst] at hp
  | cons q d ih =>
      obtain ⟨r, t⟩ := q
      by_cases h : t.websocket = some ws
      · simp only [updateLastSeenFirst, if_pos h] at hp
        rcases List.mem_cons.mp hp with h1 | h2
        · subst h1
          exact ⟨(r, t), List.mem_cons_self _ _, rfl, rfl, rfl, rfl⟩
        · exact ⟨p, List.mem_cons_of_mem _ h2, rfl, rfl, rfl, rfl⟩
      · simp only [updateLastSeenFirst, if_neg h] at hp
        rcases List.mem_cons.mp hp with h1 | h2
        · subst h1
          exact ⟨(r, t), List.mem_cons_self _ _, rfl, rfl, rfl, rfl⟩
        · obtain ⟨q, hq, hpq⟩ := ih h2
          exact ⟨q, List.mem_cons_of_mem _ hq, hpq⟩

theorem mem_completeFirst (d : List (String × Tunnel)) (ws : Nat) (cid : String)
    (msg : WireMsg) (p : String × Tunnel) (hp : p ∈ completeFirst d ws cid msg) :
    ∃ q ∈ d, q.1 = p.1 ∧ p.2.connected = q.2.connected ∧
      p.2.websocket = q.2.websocket := by
  induction d with
  | nil => simp [completeFirst] at hp
  | cons q d ih =>
      obtain ⟨r, t⟩ := q
      by_cases h : t.websocket = some ws
      · simp only [completeFirst, if_pos h] at hp
        rcases List.mem_cons.mp hp with h1 | h2
        · subst h1
          exact ⟨(r, t), List.mem_cons_self _ _, rfl, rfl, rfl⟩
        · exact ⟨p, List.mem_cons_of_mem _ h2, rfl, rfl, rfl⟩
      · simp only [completeFirst, if_neg h] at hp
        rcases List.mem_cons.mp hp with h1 | h2
        · subst h1
          exact ⟨(r, t), List.mem_cons_self _ _, rfl, rfl, rfl⟩
        · obtain ⟨q, hq, hpq⟩ := ih h2
          exact ⟨q, List.mem_cons_of_mem _ hq, hpq⟩

/-- The two components of `RegInvariant` survive an in-place value update
whose function preserves the connected/handle agreement. -/
theorem listInv_dictModify (d : List (String × Tunnel)) (k : String) (f : Tunnel → Tunnel)
    (hf : ∀ t, t.connected = t.websocket.isSome → (f t).connected = (f t).websocket.isSome)
    (hd1 : (d.map Prod.fst).Nodup) (hd2 : ∀ p ∈ d, p.2.connected = p.2.websocket.isSome) :
    ((dictModify d k f).map Prod.fst).Nodup ∧
      ∀ p ∈ dictModify d k f, p.2.connected = p.2.websocket.isSome := by
  refine ⟨by rw [keys_dictModify]; exact hd1, ?_⟩
  intro p hp
  obtain ⟨q, hq, hpq | hpq⟩ := mem_dictModify d k f p hp
  · rw [hpq]; exact hd2 q hq
  · rw [hpq]; exact hf q.2 (hd2 q hq)

/-- Constructor of `TunnelRegistry`: both indices start empty. -/
def TunnelRegistry.init : TunnelRegistry := {}

/-- C9: at every observation point and after every registry operation
(create, delete, attach, detach, ping-failure handling, client frames,
ingress sends), at most one Session exists per route, and every Session has
`connected = true` exactly when a connection handle is present. -/
theorem registry_step_invariant (s : TunnelRegistry) (op : RegOp)
    (h : RegInvariant s) : RegInvariant (s.step op) := by
  obtain ⟨h1, h2⟩ := h
  cases op with
  | create route token d now =>
      simp only [TunnelRegistry.step, TunnelRegistry.create_tunnel]
      cases hg : (dictGet s.routeToTunnel route).isSome with
      | true => rw [if_pos rfl]; exact ⟨h1, h2⟩
      | false =>
          rw [if_neg Bool.false_ne_true]
          have hnone : dictGet s.routeToTunnel route = none := by
            cases hq : dictGet s.routeToTunnel route with
            | none => rfl
            | some v => rw [hq] at hg; simp at hg
          constructor
          · show ((dictInsert s.routeToTunnel route _).map Prod.fst).Nodup
            rw [dictInsert_of_absent _ _ _ hnone, List.map_append, List.nodup_append]
            refine ⟨h1, by simp, ?_⟩
            intro a ha hb
            simp only [List.map_cons, List.map_nil, List.mem_singleton] at hb
            subst hb
            exact dictGet_none_not_mem_keys _ _ hnone ha
          · intro p hp
            rw [dictInsert_of_absent _ _ _ hnone] at hp
            rcases List.mem_append.mp hp with hmem | hmem
            · exact h2 p hmem
            · simp only [List.mem_singleton] at hmem
              rw [hmem]
              rfl
  | delete route =>
      simp only [TunnelRegistry.step, TunnelRegistry.delete_tunnel]
      have hkeys : ((dictRemove s.routeToTunnel route).map Prod.fst).Nodup :=
        ((List.filter_sublist _).map Prod.fst).nodup h1
      have hmem : ∀ p ∈ dictRemove s.routeToTunnel route,
          p.2.connected = p.2.websocket.isSome :=
        fun p hp => h2 p (List.mem_of_mem_filter hp)
      cases hg : dictGet s.routeToTunnel route with
      | none => exact ⟨h1, h2⟩
      | some t =>
          dsimp only
          cases t.websocket with
          | some ws => exact ⟨hkeys, hmem⟩
          | none => exact ⟨hkeys, hmem⟩
  | attach token ws now =>
      simp only [TunnelRegistry.step, TunnelRegistry.attach_websocket]
      cases hg : dictGet s.tokenToRoute token with
      | none => exact ⟨h1, h2⟩
      | some route =>
          dsimp only
          cases hgr : dictGet s.routeToTunnel route with
          | none => exact ⟨h1, h2⟩
          | some t =>
              dsimp only
              exact listInv_dictModify _ route (attachFn ws now) (fun u _ => rfl) h1 h2
  | detach ws now =>
      constructor
      · show ((detachFirst s.routeToTunnel ws now).map Prod.fst).Nodup
        rw [keys_detachFirst]; exact h1
      · intro p hp
        obtain ⟨q, hq, _, _, hcase⟩ :=
          mem_detachFirst s.routeToTunnel ws now p hp
        rcases hcase with heq | ⟨_, hw, hc⟩
        · rw [heq]; exact h2 q hq
        · rw [hc, hw]; rfl
  | pingFail route now =>
      simp only [TunnelRegistry.step, TunnelRegistry.ping_fail]
      cases hg : dictGet s.routeToTunnel route with
      | none => exact ⟨h1, h2⟩
      | some t =>
          dsimp only
          cases t.websocket with
          | some ws =>
              dsimp only
              exact listInv_dictModify _ route (resetConnFn now) (fun u _ => rfl) h1 h2
          | none =>
              dsimp only
              exact listInv_dictModify _ route (resetConnFn now) (fun u _ => rfl) h1 h2
  | clientMsg ws msg now =>
      simp only [TunnelRegistry.step, TunnelRegistry.handle_client_message]
      by_cases hp : msg.msgType = some "pong"
      · rw [if_pos hp]
        constructor
        · show ((updateLastSeenFirst s.routeToTunnel ws now).map Prod.fst).Nodup
          rw [keys_updateLastSeenFirst]; exact h1
        · intro p hpp
          obtain ⟨q, hq, _, _, hc, hw⟩ :=
            mem_updateLastSeenFirst s.routeToTunnel ws now p hpp
          rw [hc, hw]; exact h2 q hq
      · rw [if_neg hp]
        by_cases hr : msg.msgType = some "response"
        · rw [if_neg (not_not.mpr hr)]
          cases msg.correlation_id with
          | none => exact ⟨h1, h2⟩
          | some cid =>
              dsimp only
              by_cases hcid : cid = ""
              · rw [if_pos hcid]; exact ⟨h1, h2⟩
              · rw [if_neg hcid]
                constructor
                · show ((completeFirst s.routeToTunnel ws cid msg).map Prod.fst).Nodup
                  rw [keys_completeFirst]; exact h1
                · intro p hpp
                  obtain ⟨q, hq, _, hc, hw⟩ :=
                    mem_completeFirst s.routeToTunnel ws cid msg p hpp
                  rw [hc, hw]; exact h2 q hq
        · rw [if_pos hr]; exact ⟨h1, h2⟩
  | ingress route pc fr now ok aw =>
      simp only [TunnelRegistry.step, TunnelRegistry.send_ingress_request]
      cases hg : dictGet s.routeToTunnel route with
      | none => exact ⟨h1, h2⟩
      | some t =>
          dsimp only
          by_cases hc : t.connected = false ∨ t.websocket = none
          · rw [if_pos hc]; exact ⟨h1, h2⟩
          · rw [if_neg hc]
            have g1 := listInv_dictModify s.routeToTunnel route
              (pendingInsertFn (assignedCid pc fr) now) (fun u hu => hu) h1 h2
            cases ok with
            | false => rw [if_pos rfl]; exact ⟨g1.1, g1.2⟩
            | true =>
                rw [if_neg (by simp)]
                cases aw with
                | response st hs b =>
                    dsimp only
                    exact listInv_dictModify _ route
                      (pendingRemoveFn (assignedCid pc fr)) (fun u hu => hu) g1.1 g1.2
                | timeout =>
                    dsimp only
                    exact listInv_dictModify _ route
                      (pendingRemoveFn (assignedCid pc fr)) (fun u hu => hu) g1.1 g1.2

/-- Witness for C9 at a concrete state and operation. -/
theorem registry_step_invariant_witness :
    RegInvariant (TunnelRegistry.step TunnelRegistry.init
      (.create "svc" "tok" none 0)) :=
  registry_step_invariant TunnelRegistry.init (.create "svc" "tok" none 0)
    (by constructor <;> simp [TunnelRegistry.init, RegInvariant])

/-- C8: forwarding any byte string through ingress base64 encoding, client
decoding, an echo of the decoded body, client response encoding and server
rendering returns the original bytes. -/
theorem echo_body_roundtrip (B : List Nat) (h : ∀ b ∈ B, b < 256) :
    renderResponseBody (clientResponseBodyB64 (clientRequestBody (ingressBodyB64 B)))
      = B := by
  by_cases hB : B = []
  · rw [hB]; rfl
  · have hdec := b64decode_b64encode B h
    simp only [ingressBodyB64, if_neg hB, clientRequestBody, hdec,
      clientResponseBodyB64, if_neg hB, renderResponseBody]

/-- Witness for C8 on a concrete byte string. -/
theorem echo_body_roundtrip_witness :
    renderResponseBody (clientResponseBodyB64 (clientRequestBody
      (ingressBodyB64 [0, 255, 16, 3, 200]))) = [0, 255, 16, 3, 200] :=
  echo_body_roundtrip [0, 255, 16, 3, 200] (by decide)

/-! ## Concrete states used to exercise the registry -/

/-- A tunnel for route `svc`, attached on connection 1, with one unresolved
pending entry `c1`. -/
def sampleTunnel : Tunnel :=
  { route := "svc", token := "tok", created_at := 0, last_seen := some 0,
    websocket := some 1, connected := true,
    pending := [("c1", ⟨.unresolved, 0⟩)] }

/-- A registry holding only `sampleTunnel`. -/
def sampleState : TunnelRegistry :=
  { routeToTunnel := [("svc", sampleTunnel)],
    tokenToRoute := [("tok", "svc")], closedConns := [] }

/-- C2 counterexample: a second attach with the same valid token closes
nothing (connection 1 is never closed) and leaves the prior pending entry
unresolved instead of failing it with Superseded. -/
theorem reattach_no_supersede :
    (TunnelRegistry.attach_websocket sampleState "tok" 2 5).1.closedConns = [] ∧
      ((dictGet (TunnelRegistry.attach_websocket sampleState "tok" 2 5).1.routeToTunnel
        "svc").map Tunnel.pending) = some [("c1", ⟨.unresolved, 0⟩)] := by
  constructor <;> rfl

/-- C2 amended: attaching over a live session overwrites the connection
handle and refreshes the flags, but the previous connection is not closed
and the pending table of the session is carried over untouched (no entry is
failed with Superseded). -/
theorem reattach_overwrites_only (s : TunnelRegistry) (token route : String)
    (t : Tunnel) (ws now : Nat)
    (h1 : dictGet s.tokenToRoute token = some route)
    (h2 : dictGet s.routeToTunnel route = some t) :
    (s.attach_websocket token ws now).1.closedConns = s.closedConns ∧
      dictGet (s.attach_websocket token ws now).1.routeToTunnel route
        = some (attachFn ws now t) ∧
      (attachFn ws now t).pending = t.pending := by
  refine ⟨?_, ?_, rfl⟩
  · simp only [TunnelRegistry.attach_websocket, h1, h2]
  · simp only [TunnelRegistry.attach_websocket, h1, h2]
    rw [dictGet_dictModify, if_pos rfl, h2]
    rfl

/-- Witness for the amended C2 statement on the concrete state. -/
theorem reattach_overwrites_only_witness :
    (sampleState.attach_websocket "tok" 2 5).1.closedConns = sampleState.closedConns ∧
      dictGet (sampleState.attach_websocket "tok" 2 5).1.routeToTunnel "svc"
        = some (attachFn 2 5 sampleTunnel) ∧
      (attachFn 2 5 sampleTunnel).pending = sampleTunnel.pending :=
  reattach_overwrites_only sampleState "tok" "svc" sampleTunnel 2 5 rfl rfl

/-- C3 counterexample: detaching the connection flips `connected` to false
but leaves the pending entry unresolved in the table; nothing is failed
with Disconnected. -/
theorem detach_leaves_pending :
    ((dictGet (TunnelRegistry.detach_websocket sampleState 1 5).routeToTunnel
        "svc").map Tunnel.connected) = some false ∧
      ((dictGet (TunnelRegistry.detach_websocket sampleState 1 5).routeToTunnel
        "svc").map Tunnel.pending) = some [("c1", ⟨.unresolved, 0⟩)] := by
  constructor <;> rfl

/-- Detaching finds a tunnel bound to the connection (the first one) and
replaces it by its reset version whenever one exists at all. -/
theorem detachFirst_hits (d : List (String × Tunnel)) (ws now : Nat)
    (h : ∃ q ∈ d, q.2.websocket = some ws) :
    ∃ q ∈ d, q.2.websocket = some ws ∧
      (q.1, resetConnFn now q.2) ∈ detachFirst d ws now := by
  induction d with
  | nil => simp at h
  | cons p d ih =>
      obtain ⟨r, t⟩ := p
      by_cases hws : t.websocket = some ws
      · refine ⟨(r, t), List.mem_cons_self _ _, hws, ?_⟩
        simp only [detachFirst, if_pos hws]
        exact List.mem_cons_self _ _
      · obtain ⟨q, hq, hqws⟩ := h
        rcases List.mem_cons.mp hq with heq | hq2
        · rw [heq] at hqws
          exact absurd hqws hws
        · obtain ⟨q2, hq2m, hq2ws, hmem⟩ := ih ⟨q, hq2, hqws⟩
          refine ⟨q2, List.mem_cons_of_mem _ hq2m, hq2ws, ?_⟩
          simp only [detachFirst, if_neg hws]
          exact List.mem_cons_of_mem _ hmem

/-- C3 amended: for every detach on any registry, every tunnel of the
post-state keeps its pending table verbatim (no entry is resolved or
removed, nothing is failed with Disconnected), and whenever some tunnel
held the connection, a tunnel holding it is transitioned to
connected=false with the handle cleared and its pending carried over. -/
theorem detach_no_drain (s : TunnelRegistry) (ws now : Nat) :
    (∀ p ∈ (s.detach_websocket ws now).routeToTunnel,
        ∃ q ∈ s.routeToTunnel, q.1 = p.1 ∧ p.2.pending = q.2.pending ∧
          (p.2 = q.2 ∨ (q.2.websocket = some ws ∧ p.2.websocket = none ∧
            p.2.connected = false))) ∧
      (∀ q0 ∈ s.routeToTunnel, q0.2.websocket = some ws →
        ∃ q ∈ s.routeToTunnel, q.2.websocket = some ws ∧
          (q.1, resetConnFn now q.2) ∈ (s.detach_websocket ws now).routeToTunnel ∧
          (resetConnFn now q.2).pending = q.2.pending ∧
          (resetConnFn now q.2).connected = false ∧
          (resetConnFn now q.2).websocket = none) := by
  constructor
  · intro p hp
    exact mem_detachFirst s.routeToTunnel ws now p hp
  · intro q0 hq0 hq0ws
    obtain ⟨q, hq, hqws, hmem⟩ :=
      detachFirst_hits s.routeToTunnel ws now ⟨q0, hq0, hq0ws⟩
    exact ⟨q, hq, hqws, hmem, rfl, rfl, rfl⟩

/-- Witness for the amended C3 statement on the concrete state: both parts,
at the detached entry and at the attached source entry. -/
theorem detach_no_drain_witness :
    (∃ q ∈ sampleState.routeToTunnel, q.1 = "svc" ∧
        (resetConnFn 5 sampleTunnel).pending = q.2.pending ∧
        (resetConnFn 5 sampleTunnel = q.2 ∨
          (q.2.websocket = some 1 ∧ (resetConnFn 5 sampleTunnel).websocket = none ∧
            (resetConnFn 5 sampleTunnel).connected = false))) ∧
      (∃ q ∈ sampleState.routeToTunnel, q.2.websocket = some 1 ∧
        (q.1, resetConnFn 5 q.2) ∈ (sampleState.detach_websocket 1 5).routeToTunnel ∧
        (resetConnFn 5 q.2).pending = q.2.pending ∧
        (resetConnFn 5 q.2).connected = false ∧
        (resetConnFn 5 q.2).websocket = none) :=
  ⟨(detach_no_drain sampleState 1 5).1 ("svc", resetConnFn 5 sampleTunnel) (by decide),
   (detach_no_drain sampleState 1 5).2 ("svc", sampleTunnel) (by decide) rfl⟩

/-- C6 counterexample: a malformed (non-JSON) frame is not ignored: the
receive loop detaches the tunnel (connected becomes false), closes the
connection, and exits. -/
theorem nonjson_disconnects :
    (tunnel_ws_step sampleState 1 .nonJson 5).2 = .exitDetached ∧
      ((dictGet (tunnel_ws_step sampleState 1 .nonJson 5).1.routeToTunnel "svc").map
        Tunnel.connected) = some false ∧
      1 ∈ (tunnel_ws_step sampleState 1 .nonJson 5).1.closedConns := by
  refine ⟨rfl, rfl, ?_⟩
  simp [tunnel_ws_step]

/-- C6 amended: a JSON frame of unknown type or with no type field is
ignored (state unchanged, loop continues), but a non-JSON frame makes
`receive_json` raise, which detaches and closes the connection. -/
theorem unknown_frames_ignored_nonjson_detaches (s : TunnelRegistry) (ws : Nat)
    (msg : WireMsg) (now : Nat)
    (h1 : msg.msgType ≠ some "pong") (h2 : msg.msgType ≠ some "response") :
    tunnel_ws_step s ws (.jsonMsg msg) now = (s, .continueLoop) ∧
      (tunnel_ws_step s ws .nonJson now).2 = .exitDetached := by
  refine ⟨?_, rfl⟩
  simp only [tunnel_ws_step, TunnelRegistry.handle_client_message,
    if_neg h1, if_pos h2]

/-- Witness for the amended C6 statement: an unknown frame type. -/
theorem unknown_frames_ignored_nonjson_detaches_witness :
    tunnel_ws_step sampleState 1 (.jsonMsg { msgType := some "mystery" }) 5
        = (sampleState, .continueLoop) ∧
      (tunnel_ws_step sampleState 1 .nonJson 5).2 = .exitDetached :=
  unknown_frames_ignored_nonjson_detaches sampleState 1 { msgType := some "mystery" } 5
    (by decide) (by decide)

/-! ## Send-failure and timeout paths -/

theorem completeFirst_of_absent (d : List (String × Tunnel)) (ws : Nat) (cid : String)
    (msg : WireMsg) (h : ∀ p ∈ d, dictGet p.2.pending cid = none) :
    completeFirst d ws cid msg = d := by
  induction d with
  | nil => rfl
  | cons q d ih =>
      obtain ⟨r, t⟩ := q
      by_cases hws : t.websocket = some ws
      · simp only [completeFirst, if_pos hws]
        rw [dictModify_of_absent _ _ _ (h (r, t) (List.mem_cons_self _ _))]
      · simp only [completeFirst, if_neg hws]
        rw [ih (fun p hp => h p (List.mem_cons_of_mem _ hp))]

/-- C4 counterexample: with an attached tunnel, a failing frame write leaves
the freshly inserted pending entry in the table (the claim says it is
removed), and the forwarder raises no TransportError mapped to 502: the
exception escapes unhandled. -/
theorem send_failure_leaks_pending :
    ((dictGet (TunnelRegistry.send_ingress_request sampleState "svc" "" "f1" 7 false
        .timeout).1.routeToTunnel "svc").map
      (fun t => dictGet t.pending "f1")) = some (some ⟨.unresolved, 7⟩) ∧
    (TunnelService.forward_request sampleState
        { method := "GET", rest_of_path := "", query := [], headers := [], body := [] }
        "svc" "f1" 7 false .timeout).2 = .unhandled := by
  constructor <;> rfl

/-- C4 amended: when the frame write raises, `send_ingress_request` ends
with the exception propagating, the pending entry for the minted
correlation id is left in the pending table of the tunnel (the removing `finally` is
never entered), and `forward_request` catches nothing (no TransportError,
no 502). -/
theorem send_failure_keeps_pending (s : TunnelRegistry) (req : PublicRequest)
    (route fresh : String) (t : Tunnel) (now : Nat) (aw : AwaitOutcome)
    (hT : dictGet s.routeToTunnel route = some t)
    (hconn : t.connected = true) (hws : t.websocket.isSome) :
    (s.send_ingress_request route "" fresh now false aw).2 = .sendRaised ∧
      dictGet (s.send_ingress_request route "" fresh now false aw).1.routeToTunnel route
        = some (pendingInsertFn (assignedCid "" fresh) now t) ∧
      dictGet (pendingInsertFn (assignedCid "" fresh) now t).pending
        (assignedCid "" fresh) = some ⟨.unresolved, now⟩ ∧
      (TunnelService.forward_request s req route fresh now false aw).2 = .unhandled := by
  have hcond : ¬(t.connected = false ∨ t.websocket = none) := by
    rintro (hc | hn)
    · rw [hconn] at hc; exact Bool.noConfusion hc
    · rw [hn] at hws; simp at hws
  have hsend : s.send_ingress_request route "" fresh now false aw
      = (afterInsert s route (assignedCid "" fresh) now, .sendRaised) := by
    simp only [TunnelRegistry.send_ingress_request, hT]
    rw [if_neg hcond, if_pos trivial]
  refine ⟨by rw [hsend], ?_, ?_, ?_⟩
  · rw [hsend]
    show dictGet (dictModify s.routeToTunnel route
      (pendingInsertFn (assignedCid "" fresh) now)) route = _
    rw [dictGet_dictModify, if_pos rfl, hT]
    rfl
  · show dictGet (dictInsert t.pending (assignedCid "" fresh) ⟨.unresolved, now⟩)
      (assignedCid "" fresh) = some ⟨.unresolved, now⟩
    by_cases hpres : (t.pending.find? (fun p => p.1 == assignedCid "" fresh)).isSome
    · rw [dictInsert, if_pos hpres, dictGet_dictModify, if_pos rfl]
      cases hq : dictGet t.pending (assignedCid "" fresh) with
      | none =>
          rw [dictGet] at hq
          cases hf : t.pending.find? (fun p => p.1 == assignedCid "" fresh) with
          | none => rw [hf] at hpres; simp at hpres
          | some q => rw [hf] at hq; simp at hq
      | some q => rfl
    · rw [dictInsert, if_neg hpres, dictGet_append_single]
      have hnone : dictGet t.pending (assignedCid "" fresh) = none := by
        rw [dictGet]
        cases hf : t.pending.find? (fun p => p.1 == assignedCid "" fresh) with
        | none => rfl
        | some q => rw [hf] at hpres; simp at hpres
      rw [hnone]
      simp
  · have hcid : (buildPayload req).correlation_id = "" := rfl
    simp only [TunnelService.forward_request, hcid, hsend]

/-- Witness for the amended C4 statement on the concrete state. -/
theorem send_failure_keeps_pending_witness :
    (sampleState.send_ingress_request "svc" "" "f2" 7 false .timeout).2
        = .sendRaised ∧
      dictGet (sampleState.send_ingress_request "svc" "" "f2" 7 false
          .timeout).1.routeToTunnel "svc"
        = some (pendingInsertFn (assignedCid "" "f2") 7 sampleTunnel) ∧
      dictGet (pendingInsertFn (assignedCid "" "f2") 7 sampleTunnel).pending
        (assignedCid "" "f2") = some ⟨.unresolved, 7⟩ ∧
      (TunnelService.forward_request sampleState
        { method := "GET", rest_of_path := "", query := [], headers := [], body := [] }
        "svc" "f2" 7 false .timeout).2 = .unhandled :=
  send_failure_keeps_pending sampleState
    { method := "GET", rest_of_path := "", query := [], headers := [], body := [] }
    "svc" "f2" sampleTunnel 7 .timeout rfl rfl (by decide)

/-- A minimal public request. -/
def sampleReq : PublicRequest :=
  { method := "GET", rest_of_path := "", query := [], headers := [], body := [] }

/-- C1 counterexample: with an attached tunnel whose await times out, the
public caller does not receive 504 "Tunnel timeout": `forward_request`
catches only ConnectionError, so the TimeoutError escapes unhandled. -/
theorem timeout_no_504 :
    (TunnelService.forward_request sampleState sampleReq "svc" "f3" 7 true
        .timeout).2 = .unhandled ∧
      (TunnelService.forward_request sampleState sampleReq "svc" "f3" 7 true
        .timeout).2 ≠ .httpError 504 "Tunnel timeout" := by
  constructor
  · rfl
  · decide

/-- C1 amended: when the await times out, the pending entry for the minted
correlation id is removed by the `finally` and a later response frame for
that id is silently dropped, but the public caller gets no 504 "Tunnel
timeout": the TimeoutError propagates out of `forward_request` uncaught. -/
theorem timeout_removes_pending_no_504 (s : TunnelRegistry) (req : PublicRequest)
    (route fresh : String) (t : Tunnel) (now : Nat)
    (hT : dictGet s.routeToTunnel route = some t)
    (hconn : t.connected = true) (hws : t.websocket.isSome) :
    (s.send_ingress_request route "" fresh now true .timeout).2 = .timedOut ∧
      ((dictGet (s.send_ingress_request route "" fresh now true
            .timeout).1.routeToTunnel route).map
          (fun u => dictGet u.pending (assignedCid "" fresh))) = some none ∧
      (TunnelService.forward_request s req route fresh now true .timeout).2
        = .unhandled ∧
      (∀ s3 : TunnelRegistry, ∀ ws2 : Nat, ∀ cid2 : String, ∀ msg : WireMsg,
        ∀ now3 : Nat,
        msg.msgType = some "response" → msg.correlation_id = some cid2 → cid2 ≠ "" →
        (∀ p ∈ s3.routeToTunnel, dictGet p.2.pending cid2 = none) →
        s3.handle_client_message ws2 msg now3 = s3) := by
  have hcond : ¬(t.connected = false ∨ t.websocket = none) := by
    rintro (hc | hn)
    · rw [hconn] at hc; exact Bool.noConfusion hc
    · rw [hn] at hws; simp at hws
  have hsend : s.send_ingress_request route "" fresh now true .timeout
      = (afterRemove (afterInsert s route (assignedCid "" fresh) now) route
          (assignedCid "" fresh), .timedOut) := by
    simp only [TunnelRegistry.send_ingress_request, hT]
    rw [if_neg hcond, if_neg (by simp)]
  refine ⟨by rw [hsend], ?_, ?_, ?_⟩
  · rw [hsend]
    show (dictGet (dictModify (dictModify s.routeToTunnel route
        (pendingInsertFn (assignedCid "" fresh) now)) route
        (pendingRemoveFn (assignedCid "" fresh))) route).map _ = _
    rw [dictGet_dictModify, if_pos rfl, dictGet_dictModify, if_pos rfl, hT]
    show some (dictGet (dictRemove _ (assignedCid "" fresh)) (assignedCid "" fresh))
      = some none
    rw [dictGet_dictRemove, if_pos rfl]
  · have hcid : (buildPayload req).correlation_id = "" := rfl
    simp only [TunnelService.forward_request, hcid, hsend]
  · intro s3 ws2 cid2 msg now3 hty hcid2 hne habs
    simp only [TunnelRegistry.handle_client_message, hty, hcid2]
    rw [if_neg (by decide), if_neg (by decide), if_neg hne,
      completeFirst_of_absent s3.routeToTunnel ws2 cid2 msg habs]

/-- Witness for the amended C1 statement on the concrete state. -/
theorem timeout_removes_pending_no_504_witness :
    (sampleState.send_ingress_request "svc" "" "f3" 7 true .timeout).2 = .timedOut ∧
      ((dictGet (sampleState.send_ingress_request "svc" "" "f3" 7 true
            .timeout).1.routeToTunnel "svc").map
          (fun u => dictGet u.pending (assignedCid "" "f3"))) = some none ∧
      (TunnelService.forward_request sampleState sampleReq "svc" "f3" 7 true
        .timeout).2 = .unhandled ∧
      (∀ s3 : TunnelRegistry, ∀ ws2 : Nat, ∀ cid2 : String, ∀ msg : WireMsg,
        ∀ now3 : Nat,
        msg.msgType = some "response" → msg.correlation_id = some cid2 → cid2 ≠ "" →
        (∀ p ∈ s3.routeToTunnel, dictGet p.2.pending cid2 = none) →
        s3.handle_client_message ws2 msg now3 = s3) :=
  timeout_removes_pending_no_504 sampleState sampleReq "svc" "f3" sampleTunnel 7
    rfl rfl (by decide)

/-! ## Header translation and error mapping -/

theorem dictGet_isSome_dictInsert {β : Type} (d : List (String × β)) (kk k : String)
    (v : β) :
    (dictGet (dictInsert d kk v) k).isSome = true ↔
      ((dictGet d k).isSome = true ∨ k = kk) := by
  by_cases hpres : (d.find? (fun p => p.1 == kk)).isSome
  · rw [dictInsert, if_pos hpres, dictGet_dictModify]
    have hkk : (dictGet d kk).isSome = true := by simpa [dictGet] using hpres
    by_cases hk : k = kk
    · subst hk
      simp [hkk]
    · simp [hk]
  · rw [dictInsert, if_neg hpres, dictGet_append_single]
    cases hq : dictGet d k with
    | some w => simp
    | none =>
        by_cases hk : kk = k
        · simp [hk]
        · simp [hk, Ne.symm hk]

/-- The wire header dict of `forward_request` holds a key exactly when some
inbound header lower-cases to it: nothing is stripped. -/
theorem buildWireHeaders_keys (hs : List (String × String)) (k : String) :
    (dictGet (buildWireHeaders hs) k).isSome = true ↔
      ∃ kv ∈ hs, lowerStr kv.1 = k := by
  suffices h : ∀ acc : List (String × String),
      (dictGet (hs.foldl (fun d kv => dictInsert d (lowerStr kv.1) kv.2) acc) k).isSome
        = true ↔
        ((dictGet acc k).isSome = true ∨ ∃ kv ∈ hs, lowerStr kv.1 = k) by
    simpa [dictGet_nil] using h []
  induction hs with
  | nil => intro acc; simp [dictGet_nil]
  | cons kv hs ih =>
      intro acc
      rw [List.foldl_cons, ih (dictInsert acc (lowerStr kv.1) kv.2),
        dictGet_isSome_dictInsert]
      constructor
      · rintro ((h | h) | h)
        · exact Or.inl h
        · exact Or.inr ⟨kv, List.mem_cons_self _ _, h.symm⟩
        · obtain ⟨q, hq, hql⟩ := h
          exact Or.inr ⟨q, List.mem_cons_of_mem _ hq, hql⟩
      · rintro (h | ⟨q, hq, hql⟩)
        · exact Or.inl (Or.inl h)
        · rcases List.mem_cons.mp hq with heq | hq2
          · exact Or.inl (Or.inr (heq ▸ hql.symm))
          · exact Or.inr ⟨q, hq2, hql⟩

/-- C5 counterexample: the wire frame built by the ingress forwarder keeps
the `host` header (merely lower-cased) and the hop-by-hop
`transfer-encoding` header, contradicting the claimed stripping. -/
theorem host_header_not_stripped :
    dictGet (buildWireHeaders [("Host", "example.com"),
        ("Transfer-Encoding", "chunked")]) "host" = some "example.com" ∧
      dictGet (buildWireHeaders [("Host", "example.com"),
        ("Transfer-Encoding", "chunked")]) "transfer-encoding" = some "chunked" := by
  constructor <;> decide

/-- C5 amended: the ingress forwarder lower-cases header names and strips
nothing; only the tunnel client later pops exactly `host` and `connection`
before calling the local server, leaving all hop-by-hop headers intact. -/
theorem wire_headers_lowercased_unstripped (hs : List (String × String)) (k : String) :
    ((dictGet (buildWireHeaders hs) k).isSome = true ↔
        ∃ kv ∈ hs, lowerStr kv.1 = k) ∧
      dictGet (clientLocalHeaders hs) "host" = none ∧
      dictGet (clientLocalHeaders hs) "connection" = none ∧
      ∀ j, j ≠ "host" → j ≠ "connection" →
        dictGet (clientLocalHeaders hs) j = dictGet hs j := by
  refine ⟨buildWireHeaders_keys hs k, ?_, ?_, ?_⟩
  · rw [clientLocalHeaders, dictGet_dictRemove, if_neg (by decide),
      dictGet_dictRemove, if_pos rfl]
  · rw [clientLocalHeaders, dictGet_dictRemove, if_pos rfl]
  · intro j hj1 hj2
    rw [clientLocalHeaders, dictGet_dictRemove, if_neg hj2,
      dictGet_dictRemove, if_neg hj1]

/-- Witness for the amended C5 statement: `transfer-encoding` survives the
header cleanup done by the client. -/
theorem wire_headers_lowercased_unstripped_witness :
    dictGet (clientLocalHeaders [("host", "h"), ("connection", "c"),
        ("transfer-encoding", "t")]) "transfer-encoding"
      = dictGet [("host", "h"), ("connection", "c"), ("transfer-encoding", "t")]
          "transfer-encoding" :=
  (wire_headers_lowercased_unstripped [("host", "h"), ("connection", "c"),
    ("transfer-encoding", "t")] "host").2.2.2 "transfer-encoding" (by decide) (by decide)

/-- C7: an ingress request to a route with no attached session (route
absent, never attached, or currently detached) fails with
ConnectionError and is surfaced as HTTP 502 "Tunnel not connected". -/
theorem not_connected_maps_502 (s : TunnelRegistry) (req : PublicRequest)
    (route fresh : String) (now : Nat) (sendOk : Bool) (aw : AwaitOutcome)
    (h : dictGet s.routeToTunnel route = none ∨
      ∃ t, dictGet s.routeToTunnel route = some t ∧
        (t.connected = false ∨ t.websocket = none)) :
    (TunnelService.forward_request s req route fresh now sendOk aw).2
      = .httpError 502 "Tunnel not connected" := by
  have hsend : s.send_ingress_request route (buildPayload req).correlation_id fresh
      now sendOk aw = (s, .notConnected) := by
    rcases h with hnone | ⟨t, hsome, hcond⟩
    · simp only [TunnelRegistry.send_ingress_request, hnone]
    · simp only [TunnelRegistry.send_ingress_request, hsome]
      rw [if_pos hcond]
  simp only [TunnelService.forward_request, hsend]

/-- Witness for C7: a route that was never created. -/
theorem not_connected_maps_502_witness :
    (TunnelService.forward_request TunnelRegistry.init sampleReq "ghost" "f" 0 true
        .timeout).2 = .httpError 502 "Tunnel not connected" :=
  not_connected_maps_502 TunnelRegistry.init sampleReq "ghost" "f" 0 true .timeout
    (Or.inl rfl)

/-- C10: the correlation id placed on the wire is always the freshly minted
value: `forward_request` writes the empty string into the payload, so
`send_ingress_request` mints, and two different public requests carry the
same minted id — no header, query or body content influences it. -/
theorem correlation_id_never_from_caller (req1 req2 : PublicRequest) (fresh : String) :
    assignedCid (buildPayload req1).correlation_id fresh = fresh ∧
      assignedCid (buildPayload req1).correlation_id fresh
        = assignedCid (buildPayload req2).correlation_id fresh := by
  constructor <;> rfl

end OpenTunnel
